import Mathlib

/-!
Shallow embedding of the TRS ingestion core:
`src/airflow/dags/data_transformer.py` (offer validation and transformation)
and `src/airflow/dags/multi_database_handler.py` (multi-sink bulk writer),
with theorems settling the behavioural claims about them.

Python dictionaries are rendered as structures whose fields are `Option`s
(`none` = key absent); Python string truthiness (`""` is falsy) is rendered
by `truthyStr`.  Fallible calls return `Except`/`Option`.  External failures
(SQL connection errors and the like) are injected through explicit boolean
oracles, so that the Python `try`/`except` control flow becomes a total
function of the oracle.
-/

namespace TRS

/-! ## Data model of Amadeus offers (`data_transformer.py`) -/

/-- A `departure`/`arrival` endpoint dict of a segment: `iataCode` and `at` keys.
The Python key `at` is a Lean keyword, so the field is named `atTime`. -/
structure Endpoint where
  iataCode : Option String
  atTime : Option String
deriving Repr, DecidableEq

/-- One flight segment dict, with its `departure` and `arrival` sub-dicts. -/
structure Segment where
  departure : Option Endpoint
  arrival : Option Endpoint
deriving Repr, DecidableEq

/-- One itinerary dict, holding its `segments` list. -/
structure Itinerary where
  segments : Option (List Segment)
deriving Repr, DecidableEq

/-- The `price` dict of an offer, of which only `total` is consulted. -/
structure Price where
  total : Option String
deriving Repr, DecidableEq

/-- An Amadeus flight offer dict: the keys the core reads.  A `none` field
models the key being absent from the dict. -/
structure Offer where
  id : Option String
  itineraries : Option (List Itinerary)
  price : Option Price
deriving Repr, DecidableEq

/-- `FlightTicketTransformer` carries only its `default_user_id`. -/
structure FlightTicketTransformer where
  default_user_id : String
deriving Repr, DecidableEq

/-- The canonical ticket record built by the transformer and consumed by the
multi-database writer (a dict with exactly these keys in the source). -/
structure TicketRecord where
  user_id : String
  origin : String
  destination : String
  departure_time : String
  arrival_time : String
  seat_number : Option String
  notes : Option String
deriving Repr, DecidableEq

/-- Python truthiness of an optional string: `None` and `""` are falsy. -/
def truthyStr : Option String → Bool
  | none => false
  | some s => !s.isEmpty

/-- The empty dict `{}` default used by `segment.get("departure", {})`. -/
def emptyEndpoint : Endpoint := ⟨none, none⟩

/-- The empty dict `{}` default used by `offer.get("price", {})`. -/
def emptyPrice : Price := ⟨none⟩

/-! ## `FlightTicketTransformer.validate_amadeus_offer` -/

/-- The per-segment checks of `validate_amadeus_offer`'s inner loop:
airport codes first, then timestamps, raising `DataValidationError`
(rendered as `Except.error` of the message). -/
def validateSegment (segment : Segment) : Except String Unit :=
  let departure := segment.departure.getD emptyEndpoint
  let arrival := segment.arrival.getD emptyEndpoint
  if !truthyStr departure.iataCode || !truthyStr arrival.iataCode then
    .error "Invalid airport codes in segment"
  else if !truthyStr departure.atTime || !truthyStr arrival.atTime then
    .error "Missing departure/arrival times"
  else .ok ()

/-- Sequential traversal of one itinerary's segments. -/
def validateSegments : List Segment → Except String Unit
  | [] => .ok ()
  | s :: rest =>
    match validateSegment s with
    | .error e => .error e
    | .ok _ => validateSegments rest

/-- The `for itinerary in itineraries` loop of `validate_amadeus_offer`:
per itinerary, first the non-empty `segments` check, then each segment. -/
def validateItineraries : List Itinerary → Except String Unit
  | [] => .ok ()
  | it :: rest =>
    let segments := it.segments.getD []
    if segments.isEmpty then .error "No segments found in itinerary"
    else
      match validateSegments segments with
      | .error e => .error e
      | .ok _ => validateItineraries rest

/-- `FlightTicketTransformer.validate_amadeus_offer`: required-field presence
(`id`, `itineraries`, `price`, in that order), non-empty itineraries, the
per-itinerary/per-segment loop, then the price check; returns `True` when
every check passes, otherwise raises the first failing check's message. -/
def validate_amadeus_offer (offer : Offer) : Except String Bool :=
  if offer.id.isNone then .error "Missing required field: id"
  else if offer.itineraries.isNone then .error "Missing required field: itineraries"
  else if offer.price.isNone then .error "Missing required field: price"
  else
    let itineraries := offer.itineraries.getD []
    if itineraries.isEmpty then .error "No itineraries found in offer"
    else
      match validateItineraries itineraries with
      | .error e => .error e
      | .ok _ =>
        let price := offer.price.getD emptyPrice
        if !truthyStr price.total then .error "Missing price information"
        else .ok true

/-! ## `FlightTicketTransformer.extract_flight_legs` -/

/-- `FlightTicketTransformer.extract_flight_legs`: first segment of the first
itinerary and last segment of the last itinerary, `(none, none)` when
`itineraries` or the relevant `segments` list is empty. -/
def extract_flight_legs (offer : Offer) : Option Segment × Option Segment :=
  let itineraries := offer.itineraries.getD []
  match itineraries.head? with
  | none => (none, none)
  | some first_itinerary =>
    match (first_itinerary.segments.getD []).head? with
    | none => (none, none)
    | some first_leg =>
      match itineraries.getLast? with
      | none => (none, none)
      | some last_itinerary =>
        match (last_itinerary.segments.getD []).getLast? with
        | none => (none, none)
        | some last_leg => (some first_leg, some last_leg)

/-! ## `FlightTicketTransformer.transform_amadeus_offer_to_ticket` -/

/-- Python truthiness of an optional segment dict (`if not first_leg`):
`None` is falsy, and a dict is falsy when it is empty — over the modelled
keys, when both `departure` and `arrival` are absent. -/
def truthySeg : Option Segment → Bool
  | none => false
  | some s => s.departure.isSome || s.arrival.isSome

/-- `FlightTicketTransformer.transform_amadeus_offer_to_ticket`: validates,
extracts the legs, and builds the canonical record.  `DataValidationError`
and any `KeyError` of the direct `first_leg["departure"]["iataCode"]`-style
lookups are caught by the `except` ladder, giving `none`. -/
def transform_amadeus_offer_to_ticket (t : FlightTicketTransformer)
    (offer : Offer) : Option TicketRecord :=
  match validate_amadeus_offer offer with
  | .error _ => none
  | .ok _ =>
    let (first_leg?, last_leg?) := extract_flight_legs offer
    if !truthySeg first_leg? || !truthySeg last_leg? then none
    else
      match first_leg?, last_leg? with
      | some first_leg, some last_leg =>
        match first_leg.departure, last_leg.arrival with
        | some dep, some arr =>
          match dep.iataCode, arr.iataCode, dep.atTime, arr.atTime with
          | some origin, some destination, some dtime, some atime =>
            some { user_id := t.default_user_id, origin := origin,
                   destination := destination, departure_time := dtime,
                   arrival_time := atime, seat_number := none,
                   notes := offer.id }
          | _, _, _, _ => none
        | _, _ => none
      | _, _ => none

/-- `FlightTicketTransformer.transform_amadeus_offers_batch`: the loop over
offers, appending each successfully transformed record in input order; a
record is kept when the per-offer call returns one (records are non-empty
dicts, hence truthy). -/
def transform_amadeus_offers_batch (t : FlightTicketTransformer) :
    List Offer → List TicketRecord
  | [] => []
  | offer :: rest =>
    match transform_amadeus_offer_to_ticket t offer with
    | some record => record :: transform_amadeus_offers_batch t rest
    | none => transform_amadeus_offers_batch t rest

/-! ## `FlightTicketTransformer.get_transformation_stats` -/

/-- Round-half-to-even on a rational, the tie rule of Python's `round`. -/
def roundHalfEven (q : ℚ) : ℤ :=
  let f := ⌊q⌋
  let r := q - (f : ℚ)
  if r < 1 / 2 then f
  else if 1 / 2 < r then f + 1
  else if f % 2 = 0 then f else f + 1

/-- `round(x, 2)`: round to two decimal places. -/
def roundTo2 (q : ℚ) : ℚ := (roundHalfEven (q * 100) : ℚ) / 100

/-- The statistics dict returned by `get_transformation_stats`. -/
structure TransformationStats where
  original_count : ℤ
  transformed_count : ℤ
  failed_count : ℤ
  success_rate : ℚ
deriving Repr, DecidableEq

/-- `FlightTicketTransformer.get_transformation_stats`: failed count and
success rate (percentage rounded to two decimals, `0` when
`original_count` is not positive). -/
def get_transformation_stats (original_count transformed_count : ℤ) :
    TransformationStats :=
  let failed_count := original_count - transformed_count
  let success_rate : ℚ :=
    if original_count > 0 then
      (transformed_count : ℚ) / (original_count : ℚ) * 100
    else 0
  { original_count := original_count, transformed_count := transformed_count,
    failed_count := failed_count, success_rate := roundTo2 success_rate }

/-! ## Data model of one sink's table (`multi_database_handler.py`)

The `flight_tickets` table created by `create_flight_tickets_table`, with
its natural-key uniqueness constraint
`UNIQUE (user_id, origin, destination, departure_time)`.  One row per
`INSERT`; `created_at`/`updated_at` carry the statement's
`CURRENT_TIMESTAMP`, threaded explicitly as a `now : Nat` parameter. -/

/-- A row of `flight_tickets` (the surrogate `id` column is never read by
the code and is omitted; row identity is positional in the list). -/
structure Row where
  user_id : String
  origin : String
  destination : String
  departure_time : String
  arrival_time : String
  seat_number : Option String
  notes : Option String
  created_at : Nat
  updated_at : Nat
deriving Repr, DecidableEq

/-- A sink's table contents, in insertion order. -/
abbrev Table := List Row

/-- The natural key of a canonical record. -/
def recKey (r : TicketRecord) : String × String × String × String :=
  (r.user_id, r.origin, r.destination, r.departure_time)

/-- The natural key of a stored row. -/
def rowKey (row : Row) : String × String × String × String :=
  (row.user_id, row.origin, row.destination, row.departure_time)

/-- The row a plain `INSERT` of `record` at time `now` produces
(`created_at`/`updated_at` take their `CURRENT_TIMESTAMP` defaults). -/
def newRow (r : TicketRecord) (now : Nat) : Row :=
  { user_id := r.user_id, origin := r.origin, destination := r.destination,
    departure_time := r.departure_time, arrival_time := r.arrival_time,
    seat_number := r.seat_number, notes := r.notes,
    created_at := now, updated_at := now }

/-- Whether the table already holds a row with `r`'s natural key. -/
def keyPresent (tbl : Table) (r : TicketRecord) : Bool :=
  tbl.any (fun row => rowKey row = recKey r)

/-- Number of rows of the table carrying a record's natural key. -/
def keyCount (tbl : Table) (r : TicketRecord) : Nat :=
  tbl.countP (fun row => decide (rowKey row = recKey r))

/-- Semantics of the upsert statement of `insert_flight_ticket`
(`INSERT ... ON CONFLICT (user_id, origin, destination, departure_time)
DO UPDATE SET arrival_time, seat_number, notes, updated_at = now()`):
update the conflicting row's non-key columns, or append a fresh row. -/
def upsert (tbl : Table) (r : TicketRecord) (now : Nat) : Table :=
  if keyPresent tbl r then
    tbl.map (fun row =>
      if rowKey row = recKey r then
        { row with arrival_time := r.arrival_time,
                   seat_number := r.seat_number,
                   notes := r.notes, updated_at := now }
      else row)
  else tbl ++ [newRow r now]

/-- Semantics of a plain single-row `INSERT` with no conflict clause:
violates the natural-key constraint (`none`) when the key is taken. -/
def insertPlain (tbl : Table) (r : TicketRecord) (now : Nat) : Option Table :=
  if keyPresent tbl r then none else some (tbl ++ [newRow r now])

/-- Semantics of the multi-row `INSERT` of `_bulk_insert_with_batching`'s
fast path: all rows of the chunk in one statement, atomically — any
constraint violation leaves the table untouched (the caller keeps the old
table when the result is `none`). -/
def insertAll (tbl : Table) (rs : List TicketRecord) (now : Nat) :
    Option Table :=
  match rs with
  | [] => some tbl
  | r :: rest =>
    match insertPlain tbl r now with
    | none => none
    | some t => insertAll t rest now

/-! ## `MultiDatabaseHandler.insert_flight_ticket`

The upsert statement itself never hits the uniqueness constraint; the only
failure mode is an external `SQLAlchemyError` (connection fault), injected
as the `fails` flag.  The Python method re-raises such a failure as
`DatabaseError`, rendered as `none`. -/

/-- `MultiDatabaseHandler.insert_flight_ticket`: one upsert, `none` when the
injected external failure occurs (the raised `DatabaseError`). -/
def insert_flight_ticket (tbl : Table) (r : TicketRecord) (now : Nat)
    (fails : Bool) : Option Table :=
  if fails then none else some (upsert tbl r now)

/-! ## `MultiDatabaseHandler._bulk_insert_with_batching` -/

/-- The chunk size hardcoded in `_bulk_insert_with_batching`. -/
def batch_size : Nat := 100

/-- External (non-constraint) failure injection for one sink's writes:
`bulkFail i` — the multi-row `INSERT` of the chunk starting at offset `i`
fails for an external reason; `rowFail i j` — the fallback upsert of the
`j`-th record of that chunk fails for an external reason. -/
structure WriteOracle where
  bulkFail : Nat → Bool
  rowFail : Nat → Nat → Bool

/-- The fallback `for record in batch` loop of `_bulk_insert_with_batching`:
each record is upserted via `insert_flight_ticket`; a failed record is
logged and skipped, the loop continues.  `j` is the record's index within
the chunk, consumed by the failure oracle. -/
def fallbackLoop (tbl : Table) (batch : List TicketRecord)
    (rf : Nat → Bool) (j : Nat) (now : Nat) : Nat × Table :=
  match batch with
  | [] => (0, tbl)
  | r :: rest =>
    match insert_flight_ticket tbl r now (rf j) with
    | some t =>
      let (n, t') := fallbackLoop t rest rf (j + 1) now
      (n + 1, t')
    | none => fallbackLoop tbl rest rf (j + 1) now

/-- The `for i in range(0, len(records), batch_size)` loop of
`_bulk_insert_with_batching`: take the chunk `records[i : i + batch_size]`,
attempt its bulk `INSERT` (no conflict clause), and on failure — external
or constraint violation — run the per-record fallback on that chunk. -/
def bulkLoop (orc : WriteOracle) (now : Nat) (records : List TicketRecord)
    (tbl : Table) (i : Nat) : Nat × Table :=
  if _h : i < records.length then
    let batch := (records.drop i).take batch_size
    let p :=
      match (if orc.bulkFail i then none else insertAll tbl batch now) with
      | some t' => (batch.length, t')
      | none => fallbackLoop tbl batch (orc.rowFail i) 0 now
    let q := bulkLoop orc now records p.2 (i + batch_size)
    (p.1 + q.1, q.2)
  else (0, tbl)
  termination_by records.length - i
  decreasing_by
    simp only [batch_size]
    omega

/-- `MultiDatabaseHandler._bulk_insert_with_batching`: early return `0` on an
empty record list, otherwise the batching loop; returns the accumulated
`successful_inserts` count together with the resulting table. -/
def bulk_insert_with_batching (orc : WriteOracle) (now : Nat) (tbl : Table)
    (records : List TicketRecord) : Nat × Table :=
  if records.isEmpty then (0, tbl) else bulkLoop orc now records tbl 0

/-- `MultiDatabaseHandler._fallback_individual_inserts`: individual upserts
over the whole record list, skipping failures.  (Its only call site, the
`except SQLAlchemyError` arm of `bulk_insert_flight_tickets`, is
unreachable because `_bulk_insert_with_batching` catches every
`SQLAlchemyError` internally; modelled for completeness.) -/
def fallback_individual_inserts (tbl : Table)
    (records : List TicketRecord) (rf : Nat → Bool) (now : Nat) :
    Nat × Table :=
  fallbackLoop tbl records rf 0 now

/-! ## `MultiDatabaseHandler` and `bulk_insert_flight_tickets` -/

/-- One initialized SQLAlchemy engine together with the failure injection
for its sink: `beginFails` — opening the transaction-scoped connection
(`engine.begin()`) raises; `schemaFails` — `create_flight_tickets_table`'s
`CREATE TABLE`/`ADD CONSTRAINT` raises `SQLAlchemyError` (re-raised as
`DatabaseError`); `orc` — the write-failure oracle.  Index creation
failures are swallowed inside `_create_performance_indexes` and have no
observable effect on the modelled state. -/
structure Engine where
  table : Table
  beginFails : Bool
  schemaFails : Bool
  orc : WriteOracle

/-- `MultiDatabaseHandler.create_flight_tickets_table`: idempotent DDL whose
only modelled observable is success or the raised `DatabaseError`. -/
def create_flight_tickets_table (e : Engine) : Option Unit :=
  if e.schemaFails then none else some ()

/-- `MultiDatabaseHandler`: the `engines` dict in insertion order. -/
structure MultiDatabaseHandler where
  engines : List (String × Engine)

/-- `MultiDatabaseHandler._initialize_engines`: one `create_engine` per
configured database; a raising `create_engine` is logged and the loop
continues, leaving that name out of `engines` entirely. -/
def initialize_engines (database_configs : List (String × String))
    (create_engine : String → Option Engine) : List (String × Engine) :=
  match database_configs with
  | [] => []
  | (db_name, connection_string) :: rest =>
    match create_engine connection_string with
    | some engine =>
      (db_name, engine) :: initialize_engines rest create_engine
    | none => initialize_engines rest create_engine

/-- The body of `bulk_insert_flight_tickets`'s per-sink iteration: open the
transaction, ensure the schema, run the batching writer, commit; any
exception escaping the `with engine.begin()` block (connection failure or
`DatabaseError` from the schema step) is caught by the generic `except`,
the transaction rolls back (table unchanged) and the sink scores `0`.
(The `except SQLAlchemyError` fallback arm is dead code, see
`fallback_individual_inserts`.) -/
def processSink (records : List TicketRecord) (now : Nat) (e : Engine) :
    Nat × Table :=
  if e.beginFails then (0, e.table)
  else
    match create_flight_tickets_table e with
    | none => (0, e.table)
    | some _ =>
      let (successful_inserts, t) :=
        bulk_insert_with_batching e.orc now e.table records
      (successful_inserts, t)

/-- `MultiDatabaseHandler.bulk_insert_flight_tickets`: iterate the `engines`
dict in order, each sink handled independently by `processSink`; returns
the per-sink results in iteration order together with the handler whose
tables reflect each sink's committed (or rolled-back) state.  (The
`if engine is None` guard of the source is dead: `_initialize_engines`
never stores `None`.) -/
def bulk_insert_flight_tickets (h : MultiDatabaseHandler)
    (records : List TicketRecord) (now : Nat) :
    List (String × Nat) × MultiDatabaseHandler :=
  (h.engines.map (fun p => (p.1, (processSink records now p.2).1)),
   ⟨h.engines.map (fun p =>
     (p.1, { p.2 with table := (processSink records now p.2).2 }))⟩)

/-! ## Claim-side (specification) definitions

These definitions follow the spec's words, to be compared with the
source-derived definitions above. -/

/-- Partition a list into chunks of `batch_size` in input order (the spec's
"partition `records` into chunks of `batchSize`"). -/
def chunksB : List α → List (List α)
  | [] => []
  | a :: l => (a :: l).take batch_size :: chunksB ((a :: l).drop batch_size)
  termination_by l => l.length
  decreasing_by
    simp only [List.length_drop, List.length_cons, batch_size]
    omega

/-- The spec's description of one chunk's processing: one bulk insert of the
whole chunk with no conflict clause; on its failure, the records whose
individual upserts succeed — and only those — are applied, in order, and
counted.  `bulkFails` is the external-failure flag for this chunk's bulk
statement, `rf` the per-index external-failure flag for its fallback
upserts. -/
def specChunk (rf : Nat → Bool) (bulkFails : Bool) (now : Nat)
    (tbl : Table) (c : List TicketRecord) : Nat × Table :=
  match (if bulkFails then none else insertAll tbl c now) with
  | some t => (c.length, t)
  | none =>
    let kept := c.enum.filter (fun p => !rf p.1)
    (kept.length, kept.foldl (fun t p => upsert t p.2 now) tbl)

/-- The spec's description of `writeBatch` over an explicit chunk list:
chunks processed in order, counts accumulated; `o` is the starting offset
of the current chunk, feeding the failure oracle. -/
def specWriteBatch (orc : WriteOracle) (now : Nat) :
    List (List TicketRecord) → Nat → Table → Nat × Table
  | [], _, tbl => (0, tbl)
  | c :: cs, o, tbl =>
    let (n, t) := specChunk (orc.rowFail o) (orc.bulkFail o) now tbl c
    let (m, t') := specWriteBatch orc now cs (o + batch_size) t
    (n + m, t')

/-- The spec's per-segment condition: non-empty airport codes and times. -/
def segOK (s : Segment) : Bool :=
  truthyStr (s.departure.getD emptyEndpoint).iataCode &&
  truthyStr (s.arrival.getD emptyEndpoint).iataCode &&
  truthyStr (s.departure.getD emptyEndpoint).atTime &&
  truthyStr (s.arrival.getD emptyEndpoint).atTime

/-- The spec's per-itinerary condition: non-empty `segments`, every segment
well-formed. -/
def itinOK (it : Itinerary) : Bool :=
  !(it.segments.getD []).isEmpty && (it.segments.getD []).all segOK

/-- The spec's acceptance condition for an offer ("all other well-formed
offers pass"): `id`, `itineraries`, `price` present, itineraries
non-empty, every itinerary with non-empty segments, every segment with
non-empty airport codes and times, and a non-empty `price.total`. -/
def offerWellFormed (o : Offer) : Bool :=
  o.id.isSome && o.itineraries.isSome && o.price.isSome &&
  !(o.itineraries.getD []).isEmpty &&
  (o.itineraries.getD []).all itinOK &&
  truthyStr ((o.price.getD emptyPrice).total)

/-- The six rejection messages of `validate_amadeus_offer`, each naming the
violated field. -/
def validationMessages : List String :=
  ["Missing required field: id", "Missing required field: itineraries",
   "Missing required field: price", "No itineraries found in offer",
   "No segments found in itinerary", "Invalid airport codes in segment",
   "Missing departure/arrival times", "Missing price information"]

/-- The validator as the spec's ordered check list reads when checks 3-5 are
taken as separate passes over the whole offer: (1)-(2) presence and
non-empty itineraries, (3) every itinerary has non-empty segments,
(4) every segment has non-empty airport codes, (5) every segment has
non-empty times, (6) non-empty `price.total` — short-circuiting in that
order.  Written from the spec's words, for comparison with the
source-derived `validate_amadeus_offer`. -/
def validateSpecOrder (offer : Offer) : Except String Bool :=
  if offer.id.isNone then .error "Missing required field: id"
  else if offer.itineraries.isNone then .error "Missing required field: itineraries"
  else if offer.price.isNone then .error "Missing required field: price"
  else
    let itineraries := offer.itineraries.getD []
    if itineraries.isEmpty then .error "No itineraries found in offer"
    else if !itineraries.all (fun it => !(it.segments.getD []).isEmpty) then
      .error "No segments found in itinerary"
    else if !itineraries.all (fun it => (it.segments.getD []).all (fun s =>
        truthyStr (s.departure.getD emptyEndpoint).iataCode &&
        truthyStr (s.arrival.getD emptyEndpoint).iataCode)) then
      .error "Invalid airport codes in segment"
    else if !itineraries.all (fun it => (it.segments.getD []).all (fun s =>
        truthyStr (s.departure.getD emptyEndpoint).atTime &&
        truthyStr (s.arrival.getD emptyEndpoint).atTime)) then
      .error "Missing departure/arrival times"
    else if !truthyStr ((offer.price.getD emptyPrice).total) then
      .error "Missing price information"
    else .ok true

/-! ## Concrete sample data for witnesses and counterexamples -/

/-- A well-formed one-segment itinerary from `A` to `B` at the given times. -/
def sampleItin (a b ta tb : String) : Itinerary :=
  ⟨some [⟨some ⟨some a, some ta⟩, some ⟨some b, some tb⟩⟩]⟩

/-- A well-formed two-leg offer with itineraries `[[A→B], [C→D]]`. -/
def sampleOffer : Offer :=
  ⟨some "OFFER-1",
   some [sampleItin "AAA" "BBB" "t1" "t2", sampleItin "CCC" "DDD" "t3" "t4"],
   some ⟨some "123.45"⟩⟩

/-- An offer whose first itinerary's only segment has valid airport codes
but no departure time, and whose second itinerary has empty segments:
the source validator and the spec-ordered validator reject it with
different reasons. -/
def mixedOffer : Offer :=
  ⟨some "OFFER-2",
   some [⟨some [⟨some ⟨some "AAA", none⟩, some ⟨some "BBB", some "t2"⟩⟩]⟩,
         ⟨some []⟩],
   some ⟨some "99.00"⟩⟩

/-- A sample canonical record with natural key (`u`, `AAA`, `BBB`, `t1`). -/
def sampleRecord : TicketRecord :=
  { user_id := "u", origin := "AAA", destination := "BBB",
    departure_time := "t1", arrival_time := "t2",
    seat_number := none, notes := some "OFFER-1" }

/-- A second sample record with a different natural key. -/
def sampleRecord2 : TicketRecord :=
  { user_id := "u", origin := "CCC", destination := "DDD",
    departure_time := "t3", arrival_time := "t4",
    seat_number := none, notes := some "OFFER-2" }

/-- A failure-free write oracle. -/
def noFailOracle : WriteOracle := ⟨fun _ => false, fun _ _ => false⟩

/-- A fully healthy engine over an empty table. -/
def healthyEngine : Engine :=
  { table := [], beginFails := false, schemaFails := false,
    orc := noFailOracle }

/-- An engine whose schema-ensure step raises. -/
def schemaFailEngine : Engine := { healthyEngine with schemaFails := true }

/-- A `create_engine` model that fails exactly on the connection string
`"bad://"`. -/
def sampleCreateEngine (connection_string : String) : Option Engine :=
  if connection_string = "bad://" then none else some healthyEngine

/-- The two-sink configuration of the sink-isolation scenario: `badSink`
with an invalid connection string, `goodSink` with a valid one. -/
def sampleConfigs : List (String × String) :=
  [("badSink", "bad://"), ("goodSink", "ok://")]

/-- The handler built from `sampleConfigs`. -/
def sampleHandler : MultiDatabaseHandler :=
  ⟨initialize_engines sampleConfigs sampleCreateEngine⟩

/-- A two-sink handler whose first sink fails at the schema-ensure step. -/
def sampleHandler2 : MultiDatabaseHandler :=
  ⟨[("s1", schemaFailEngine), ("s2", healthyEngine)]⟩

/-! # Theorems

## Validator lemmas -/

theorem validateSegment_ok_iff (s : Segment) :
    validateSegment s = .ok () ↔ segOK s = true := by
  cases ha : truthyStr (s.departure.getD emptyEndpoint).iataCode <;>
  cases hb : truthyStr (s.arrival.getD emptyEndpoint).iataCode <;>
  cases hc : truthyStr (s.departure.getD emptyEndpoint).atTime <;>
  cases hd : truthyStr (s.arrival.getD emptyEndpoint).atTime <;>
    simp [validateSegment, segOK, ha, hb, hc, hd]

theorem validateSegment_error_mem {s : Segment} {e : String}
    (h : validateSegment s = .error e) :
    e = "Invalid airport codes in segment" ∨
    e = "Missing departure/arrival times" := by
  simp only [validateSegment] at h
  split_ifs at h <;> simp_all

theorem validateSegments_ok_iff (l : List Segment) :
    validateSegments l = .ok () ↔ l.all segOK = true := by
  induction l with
  | nil => simp [validateSegments]
  | cons s rest ih =>
    simp only [validateSegments, List.all_cons]
    cases h : validateSegment s with
    | error e =>
      have hs : segOK s = false := by
        cases hss : segOK s
        · rfl
        · exact absurd ((validateSegment_ok_iff s).mpr hss) (by simp [h])
      simp [h, hs]
    | ok u =>
      cases u
      simp only [Bool.and_eq_true, ih]
      have hs := (validateSegment_ok_iff s).mp h
      simp [hs, ih]

theorem validateSegments_error_mem {l : List Segment} {e : String}
    (h : validateSegments l = .error e) :
    e = "Invalid airport codes in segment" ∨
    e = "Missing departure/arrival times" := by
  induction l with
  | nil => simp [validateSegments] at h
  | cons s rest ih =>
    simp only [validateSegments] at h
    cases hv : validateSegment s with
    | error e' =>
      rw [hv] at h
      cases h
      exact validateSegment_error_mem hv
    | ok u => rw [hv] at h; exact ih h

theorem validateItineraries_ok_iff (l : List Itinerary) :
    validateItineraries l = .ok () ↔ l.all itinOK = true := by
  induction l with
  | nil => simp [validateItineraries]
  | cons it rest ih =>
    simp only [validateItineraries, List.all_cons, itinOK]
    cases hseg : (it.segments.getD []).isEmpty
    · simp only [hseg, Bool.false_eq_true, if_false, Bool.not_false,
        Bool.true_and]
      cases h : validateSegments (it.segments.getD []) with
      | error e =>
        have hs : (it.segments.getD []).all segOK = false := by
          cases hss : (it.segments.getD []).all segOK
          · rfl
          · exact absurd ((validateSegments_ok_iff _).mpr hss) (by simp [h])
        simp [h, hs]
      | ok u =>
        cases u
        simp [h, (validateSegments_ok_iff _).mp h, ih]
    · simp [hseg]

theorem validateItineraries_error_mem {l : List Itinerary} {e : String}
    (h : validateItineraries l = .error e) :
    e = "No segments found in itinerary" ∨
    e = "Invalid airport codes in segment" ∨
    e = "Missing departure/arrival times" := by
  induction l with
  | nil => simp [validateItineraries] at h
  | cons it rest ih =>
    simp only [validateItineraries] at h
    split_ifs at h with hseg
    · cases h; exact Or.inl rfl
    · cases hv : validateSegments (it.segments.getD []) with
      | error e' =>
        rw [hv] at h
        cases h
        exact Or.inr (validateSegments_error_mem hv)
      | ok u => rw [hv] at h; exact ih h

/-- The source validator accepts exactly the spec's well-formed offers. -/
theorem validate_ok_iff (o : Offer) :
    validate_amadeus_offer o = .ok true ↔ offerWellFormed o = true := by
  simp only [validate_amadeus_offer, offerWellFormed]
  split_ifs with h1 h2 h3 h4 h5
  · simp [Option.isNone_iff_eq_none.mp h1]
  · simp [Option.isNone_iff_eq_none.mp h2]
  · simp [Option.isNone_iff_eq_none.mp h3]
  · simp [h4]
  · have hp : truthyStr ((o.price.getD emptyPrice).total) = false := by
      simpa using h5
    cases hv : validateItineraries (o.itineraries.getD []) <;> simp [hv, hp]
  · have hid : o.id.isSome = true := by
      cases hx : o.id
      · rw [hx] at h1; simp at h1
      · rfl
    have hits : o.itineraries.isSome = true := by
      cases hx : o.itineraries
      · rw [hx] at h2; simp at h2
      · rfl
    have hprice : o.price.isSome = true := by
      cases hx : o.price
      · rw [hx] at h3; simp at h3
      · rfl
    have hemp : (o.itineraries.getD []).isEmpty = false := by simpa using h4
    have hp : truthyStr ((o.price.getD emptyPrice).total) = true := by
      simpa using h5
    cases hv : validateItineraries (o.itineraries.getD []) with
    | error e =>
      have hall : (o.itineraries.getD []).all itinOK = false := by
        cases hss : (o.itineraries.getD []).all itinOK
        · rfl
        · exact absurd ((validateItineraries_ok_iff _).mpr hss) (by simp [hv])
      simp [hv, hall, hid, hits, hprice, hemp, hp]
    | ok u =>
      cases u
      simp [hv, (validateItineraries_ok_iff _).mp hv, hid, hits, hprice,
        hemp, hp]

theorem validate_error_messages (o : Offer) (e : String)
    (h : validate_amadeus_offer o = .error e) : e ∈ validationMessages := by
  simp only [validate_amadeus_offer] at h
  split_ifs at h with h1 h2 h3 h4 h5
  · simp only [Except.error.injEq] at h; subst h; simp [validationMessages]
  · simp only [Except.error.injEq] at h; subst h; simp [validationMessages]
  · simp only [Except.error.injEq] at h; subst h; simp [validationMessages]
  · simp only [Except.error.injEq] at h; subst h; simp [validationMessages]
  · cases hv : validateItineraries (o.itineraries.getD []) with
    | error e' =>
      rw [hv] at h
      simp only [Except.error.injEq] at h
      subst h
      rcases validateItineraries_error_mem hv with h' | h' | h' <;>
        simp [h', validationMessages]
    | ok u =>
      rw [hv] at h
      cases u
      simp only [Except.error.injEq] at h
      subst h
      simp [validationMessages]
  · cases hv : validateItineraries (o.itineraries.getD []) with
    | error e' =>
      rw [hv] at h
      simp only [Except.error.injEq] at h
      subst h
      rcases validateItineraries_error_mem hv with h' | h' | h' <;>
        simp [h', validationMessages]
    | ok u => rw [hv] at h; cases u; simp at h

theorem validate_shape (o : Offer) :
    validate_amadeus_offer o = .ok true ∨
    ∃ e, validate_amadeus_offer o = .error e := by
  simp only [validate_amadeus_offer]
  split_ifs <;> try (right; exact ⟨_, rfl⟩)
  all_goals
    cases hv : validateItineraries (o.itineraries.getD []) with
    | error e => right; exact ⟨e, rfl⟩
    | ok u =>
      cases u
      first
      | (left; rfl)
      | (right; exact ⟨_, rfl⟩)

theorem validate_ok_shape {o : Offer} {b : Bool}
    (h : validate_amadeus_offer o = .ok b) : b = true := by
  rcases validate_shape o with h' | ⟨e, h'⟩ <;> rw [h'] at h
  · simp only [Except.ok.injEq] at h
    exact h.symm
  · simp at h

/-! ## C4 — validator completeness and check order -/

/-- C4 (amended): `validate_amadeus_offer` accepts exactly the offers
satisfying the spec's conditions; every rejection carries one of the six
messages naming the violated field; and every offer violating a condition
is rejected with such a message.  (The amendment: the checks short-circuit
in the source's traversal order — per itinerary, segments-nonempty then
per segment codes then times — not as the spec's separately ordered
passes 3-5; see the counterexample.) -/
theorem validator_complete (o : Offer) :
    (validate_amadeus_offer o = .ok true ↔ offerWellFormed o = true) ∧
    (∀ e, validate_amadeus_offer o = .error e → e ∈ validationMessages) ∧
    (offerWellFormed o = false →
      ∃ e, validate_amadeus_offer o = .error e ∧ e ∈ validationMessages) := by
  refine ⟨validate_ok_iff o, fun e h => validate_error_messages o e h, ?_⟩
  intro hwf
  cases hv : validate_amadeus_offer o with
  | error e => exact ⟨e, rfl, validate_error_messages o e hv⟩
  | ok b =>
    have hb := validate_ok_shape hv
    subst hb
    rw [(validate_ok_iff o).mp hv] at hwf
    cases hwf

/-- C4 witness: a concrete offer missing `id` is rejected with the message
naming `id`, and the acceptance equivalence instantiates there. -/
theorem validator_complete_witness :
    (validate_amadeus_offer ⟨none, none, none⟩ = .ok true ↔
      offerWellFormed ⟨none, none, none⟩ = true) ∧
    "Missing required field: id" ∈ validationMessages ∧
    (∃ e, validate_amadeus_offer ⟨none, none, none⟩ = .error e ∧
      e ∈ validationMessages) :=
  ⟨(validator_complete ⟨none, none, none⟩).1,
   (validator_complete ⟨none, none, none⟩).2.1 "Missing required field: id" rfl,
   (validator_complete ⟨none, none, none⟩).2.2 rfl⟩

/-- C4 counterexample: on `mixedOffer` the source validator reports the
first failure of its interleaved traversal (`Missing departure/arrival
times`, from the first itinerary's segment), while running the spec's
checks 3-5 as ordered passes would report `No segments found in
itinerary` (from the second itinerary) — so the checks do not run in the
spec's stated order. -/
theorem validator_order_cex :
    ∃ e1 e2, validate_amadeus_offer mixedOffer = .error e1 ∧
      validateSpecOrder mixedOffer = .error e2 ∧ e1 ≠ e2 :=
  ⟨"Missing departure/arrival times", "No segments found in itinerary",
   rfl, rfl, by decide⟩

/-! ## C9 — transformation statistics -/

/-- C9: `get_transformation_stats` is the pure arithmetic the spec states:
`failed = submitted - written`, `successRate = written/submitted*100`
rounded to two decimals with `0` for `submitted = 0`; and the two
concrete instances of the spec. -/
theorem stats_arithmetic (submitted written : ℤ)
    (hs : 0 ≤ submitted) (_hw : 0 ≤ written) :
    (get_transformation_stats submitted written).original_count = submitted ∧
    (get_transformation_stats submitted written).transformed_count = written ∧
    (get_transformation_stats submitted written).failed_count =
      submitted - written ∧
    (get_transformation_stats submitted written).success_rate =
      (if submitted = 0 then 0
       else roundTo2 ((written : ℚ) / (submitted : ℚ) * 100)) ∧
    get_transformation_stats 10 7 =
      { original_count := 10, transformed_count := 7, failed_count := 3,
        success_rate := 70 } ∧
    (get_transformation_stats 0 0).success_rate = 0 := by
  refine ⟨rfl, rfl, rfl, ?_, ?_, ?_⟩
  · simp only [get_transformation_stats]
    rcases lt_or_eq_of_le hs with hpos | hzero
    · rw [if_pos hpos, if_neg (by omega)]
    · rw [← hzero, if_neg (by omega), if_pos rfl]
      norm_num [roundTo2, roundHalfEven]
  · norm_num [get_transformation_stats, roundTo2, roundHalfEven]
  · norm_num [get_transformation_stats, roundTo2, roundHalfEven]

/-- C9 witness: the theorem instantiated at `submitted = 10, written = 7`. -/
theorem stats_arithmetic_witness :
    (get_transformation_stats 10 7).original_count = 10 ∧
    (get_transformation_stats 10 7).transformed_count = 7 ∧
    (get_transformation_stats 10 7).failed_count = 10 - 7 ∧
    (get_transformation_stats 10 7).success_rate =
      (if (10 : ℤ) = 0 then 0 else roundTo2 ((7 : ℚ) / (10 : ℚ) * 100)) ∧
    get_transformation_stats 10 7 =
      { original_count := 10, transformed_count := 7, failed_count := 3,
        success_rate := 70 } ∧
    (get_transformation_stats 0 0).success_rate = 0 :=
  stats_arithmetic 10 7 (by norm_num) (by norm_num)

/-! ## Transformation lemmas -/

theorem truthyStr_isSome {x : Option String} (h : truthyStr x = true) :
    ∃ v, x = some v := by
  cases x
  · simp [truthyStr] at h
  · exact ⟨_, rfl⟩

theorem segOK_fields {s : Segment} (h : segOK s = true) :
    ∃ dep arr origin dest dt at1,
      s.departure = some dep ∧ s.arrival = some arr ∧
      dep.iataCode = some origin ∧ arr.iataCode = some dest ∧
      dep.atTime = some dt ∧ arr.atTime = some at1 := by
  simp only [segOK, Bool.and_eq_true] at h
  obtain ⟨⟨⟨h1, h2⟩, h3⟩, h4⟩ := h
  cases hd : s.departure with
  | none => rw [hd] at h1; simp [emptyEndpoint, truthyStr] at h1
  | some dep =>
    cases ha : s.arrival with
    | none => rw [ha] at h2; simp [emptyEndpoint, truthyStr] at h2
    | some arr =>
      rw [hd] at h1 h3
      rw [ha] at h2 h4
      simp only [Option.getD_some] at h1 h2 h3 h4
      obtain ⟨o1, ho1⟩ := truthyStr_isSome h1
      obtain ⟨o2, ho2⟩ := truthyStr_isSome h2
      obtain ⟨o3, ho3⟩ := truthyStr_isSome h3
      obtain ⟨o4, ho4⟩ := truthyStr_isSome h4
      exact ⟨dep, arr, o1, o2, o3, o4, rfl, rfl, ho1, ho2, ho3, ho4⟩

theorem transform_eval (t : FlightTicketTransformer) (o : Offer)
    (s1 sk : Segment) (dep arr : Endpoint) (origin dest dt at1 : String)
    (hv : validate_amadeus_offer o = .ok true)
    (hex : extract_flight_legs o = (some s1, some sk))
    (hdep : s1.departure = some dep) (harr : sk.arrival = some arr)
    (hoc : dep.iataCode = some origin) (hdc : arr.iataCode = some dest)
    (hot : dep.atTime = some dt) (hat : arr.atTime = some at1) :
    transform_amadeus_offer_to_ticket t o =
      some { user_id := t.default_user_id, origin := origin,
             destination := dest, departure_time := dt,
             arrival_time := at1, seat_number := none, notes := o.id } := by
  simp [transform_amadeus_offer_to_ticket, hv, hex, truthySeg, hdep,
    harr, hoc, hdc, hot, hat]

theorem extract_of_wellFormed (o : Offer) (hwf : offerWellFormed o = true) :
    ∃ s1 sk, extract_flight_legs o = (some s1, some sk) ∧
      segOK s1 = true ∧ segOK sk = true := by
  simp only [offerWellFormed, Bool.and_eq_true] at hwf
  obtain ⟨⟨⟨⟨⟨hid, hits⟩, hp⟩, hemp⟩, hall⟩, hpt⟩ := hwf
  obtain ⟨its, hits'⟩ := Option.isSome_iff_exists.mp hits
  rw [hits'] at hemp hall
  simp only [Option.getD_some] at hemp hall
  have hne : its ≠ [] := by simpa [List.isEmpty_iff] using hemp
  obtain ⟨it1, hit1⟩ :=
    Option.isSome_iff_exists.mp (List.head?_isSome.mpr hne)
  obtain ⟨itk, hitk⟩ :=
    Option.isSome_iff_exists.mp (List.getLast?_isSome.mpr hne)
  have hok1 : itinOK it1 = true :=
    List.all_eq_true.mp hall it1 (List.mem_of_mem_head? (Option.mem_def.mpr hit1))
  have hokk : itinOK itk = true :=
    List.all_eq_true.mp hall itk (List.mem_of_getLast?_eq_some hitk)
  simp only [itinOK, Bool.and_eq_true] at hok1 hokk
  obtain ⟨hne1, hseg1⟩ := hok1
  obtain ⟨hnek, hsegk⟩ := hokk
  have hne1' : it1.segments.getD [] ≠ [] := by
    simpa [List.isEmpty_iff] using hne1
  have hnek' : itk.segments.getD [] ≠ [] := by
    simpa [List.isEmpty_iff] using hnek
  obtain ⟨s1, hs1⟩ :=
    Option.isSome_iff_exists.mp (List.head?_isSome.mpr hne1')
  obtain ⟨sk, hsk⟩ :=
    Option.isSome_iff_exists.mp (List.getLast?_isSome.mpr hnek')
  refine ⟨s1, sk, ?_, ?_, ?_⟩
  · simp only [extract_flight_legs, hits', Option.getD_some, hit1, hs1,
      hitk, hsk]
  · exact List.all_eq_true.mp hseg1 s1
      (List.mem_of_mem_head? (Option.mem_def.mpr hs1))
  · exact List.all_eq_true.mp hsegk sk (List.mem_of_getLast?_eq_some hsk)

/-! ## C10 — validation success makes the missing-leg branch unreachable -/

/-- C10: whenever validation succeeds, `extract_flight_legs` yields both
legs, so `transform_amadeus_offer_to_ticket` always returns a record. -/
theorem valid_offer_transforms (t : FlightTicketTransformer) (o : Offer)
    (hv : validate_amadeus_offer o = .ok true) :
    (extract_flight_legs o).1.isSome = true ∧
    (extract_flight_legs o).2.isSome = true ∧
    (transform_amadeus_offer_to_ticket t o).isSome = true := by
  obtain ⟨s1, sk, hex, h1, hk⟩ :=
    extract_of_wellFormed o ((validate_ok_iff o).mp hv)
  obtain ⟨dep, _, origin, _, dt, _, hdep, _, hoc, _, hot, _⟩ := segOK_fields h1
  obtain ⟨_, arr, _, dest, _, at1, _, harr, _, hdc, _, hat⟩ := segOK_fields hk
  rw [hex, transform_eval t o s1 sk dep arr origin dest dt at1 hv hex hdep
    harr hoc hdc hot hat]
  exact ⟨rfl, rfl, rfl⟩

/-- C10 witness: the concrete well-formed `sampleOffer`. -/
theorem valid_offer_transforms_witness :
    (extract_flight_legs sampleOffer).1.isSome = true ∧
    (extract_flight_legs sampleOffer).2.isSome = true ∧
    (transform_amadeus_offer_to_ticket ⟨"u"⟩ sampleOffer).isSome = true :=
  valid_offer_transforms ⟨"u"⟩ sampleOffer rfl

/-! ## C5 — the canonical record uses only the outermost legs -/

/-- C5: for a validating offer, the record's `origin`/`departure_time` come
from the first segment of the first itinerary, `destination`/`arrival_time`
from the last segment of the last itinerary, `seat_number` is unset and
`notes` is the offer's id — whatever lies between. -/
theorem transform_outermost_legs (t : FlightTicketTransformer) (o : Offer)
    (its : List Itinerary) (it1 itk : Itinerary) (s1 sk : Segment)
    (hv : validate_amadeus_offer o = .ok true)
    (hits : o.itineraries = some its)
    (hit1 : its.head? = some it1)
    (hs1 : (it1.segments.getD []).head? = some s1)
    (hitk : its.getLast? = some itk)
    (hsk : (itk.segments.getD []).getLast? = some sk) :
    ∃ r, transform_amadeus_offer_to_ticket t o = some r ∧
      (s1.departure.getD emptyEndpoint).iataCode = some r.origin ∧
      (sk.arrival.getD emptyEndpoint).iataCode = some r.destination ∧
      (s1.departure.getD emptyEndpoint).atTime = some r.departure_time ∧
      (sk.arrival.getD emptyEndpoint).atTime = some r.arrival_time ∧
      r.seat_number = none ∧ r.notes = o.id ∧
      r.user_id = t.default_user_id := by
  have hwf := (validate_ok_iff o).mp hv
  simp only [offerWellFormed, Bool.and_eq_true] at hwf
  obtain ⟨⟨⟨⟨⟨hid, hitsS⟩, hpS⟩, hemp⟩, hall⟩, hpt⟩ := hwf
  rw [hits] at hall
  simp only [Option.getD_some] at hall
  have hok1 : itinOK it1 = true :=
    List.all_eq_true.mp hall it1 (List.mem_of_mem_head? (Option.mem_def.mpr hit1))
  have hokk : itinOK itk = true :=
    List.all_eq_true.mp hall itk (List.mem_of_getLast?_eq_some hitk)
  simp only [itinOK, Bool.and_eq_true] at hok1 hokk
  have hsok1 : segOK s1 = true :=
    List.all_eq_true.mp hok1.2 s1 (List.mem_of_mem_head? (Option.mem_def.mpr hs1))
  have hsokk : segOK sk = true :=
    List.all_eq_true.mp hokk.2 sk (List.mem_of_getLast?_eq_some hsk)
  have hex : extract_flight_legs o = (some s1, some sk) := by
    simp only [extract_flight_legs, hits, Option.getD_some, hit1, hs1,
      hitk, hsk]
  obtain ⟨dep, _, origin, _, dt, _, hdep, _, hoc, _, hot, _⟩ :=
    segOK_fields hsok1
  obtain ⟨_, arr, _, dest, _, at1, _, harr, _, hdc, _, hat⟩ :=
    segOK_fields hsokk
  refine ⟨_, transform_eval t o s1 sk dep arr origin dest dt at1 hv hex
    hdep harr hoc hdc hot hat, ?_, ?_, ?_, ?_, rfl, rfl, rfl⟩
  · rw [hdep, Option.getD_some, hoc]
  · rw [harr, Option.getD_some, hdc]
  · rw [hdep, Option.getD_some, hot]
  · rw [harr, Option.getD_some, hat]

/-- C5 witness: the concrete offer with itineraries `[[AAA→BBB], [CCC→DDD]]`
yields `origin = AAA`, `destination = DDD`. -/
theorem transform_outermost_legs_witness :
    ∃ r, transform_amadeus_offer_to_ticket ⟨"u"⟩ sampleOffer = some r ∧
      r.origin = "AAA" ∧ r.destination = "DDD" := by
  obtain ⟨r, hr, h1, h2, _⟩ :=
    transform_outermost_legs ⟨"u"⟩ sampleOffer
      [sampleItin "AAA" "BBB" "t1" "t2", sampleItin "CCC" "DDD" "t3" "t4"]
      (sampleItin "AAA" "BBB" "t1" "t2") (sampleItin "CCC" "DDD" "t3" "t4")
      ⟨some ⟨some "AAA", some "t1"⟩, some ⟨some "BBB", some "t2"⟩⟩
      ⟨some ⟨some "CCC", some "t3"⟩, some ⟨some "DDD", some "t4"⟩⟩
      rfl rfl rfl rfl rfl rfl
  refine ⟨r, hr, ?_, ?_⟩
  · have h1' : some "AAA" = some r.origin := h1
    exact (Option.some.inj h1').symm
  · have h2' : some "DDD" = some r.destination := h2
    exact (Option.some.inj h2').symm

/-! ## C8 — per-offer fault absorption and batch filtering -/

/-- C8: `transform_amadeus_offer_to_ticket` returns `none` whenever
validation fails or a leg is missing (never propagating the error), and
the batch transform returns exactly the successfully transformed records
in input order. -/
theorem transform_error_handling (t : FlightTicketTransformer) (o : Offer)
    (offers : List Offer) :
    ((∃ e, validate_amadeus_offer o = .error e) ∨
        (extract_flight_legs o).1 = none ∨ (extract_flight_legs o).2 = none →
      transform_amadeus_offer_to_ticket t o = none) ∧
    transform_amadeus_offers_batch t offers =
      offers.filterMap (transform_amadeus_offer_to_ticket t) := by
  constructor
  · rintro (⟨e, he⟩ | h1 | h1)
    · simp [transform_amadeus_offer_to_ticket, he]
    · rcases hx : extract_flight_legs o with ⟨fl, ll⟩
      rw [hx] at h1
      subst h1
      cases hv : validate_amadeus_offer o with
      | error e => simp [transform_amadeus_offer_to_ticket, hv]
      | ok b => simp [transform_amadeus_offer_to_ticket, hv, hx, truthySeg]
    · rcases hx : extract_flight_legs o with ⟨fl, ll⟩
      rw [hx] at h1
      subst h1
      cases hv : validate_amadeus_offer o with
      | error e => simp [transform_amadeus_offer_to_ticket, hv]
      | ok b => simp [transform_amadeus_offer_to_ticket, hv, hx, truthySeg]
  · induction offers with
    | nil => rfl
    | cons a rest ih =>
      simp only [transform_amadeus_offers_batch, List.filterMap_cons]
      cases h : transform_amadeus_offer_to_ticket t a <;> simp [h, ih]

/-- C8 witness: a batch of one well-formed and one id-less offer keeps
exactly the transformed record of the former. -/
theorem transform_error_handling_witness :
    transform_amadeus_offer_to_ticket ⟨"u"⟩ ⟨none, none, none⟩ = none ∧
    transform_amadeus_offers_batch ⟨"u"⟩ [sampleOffer, ⟨none, none, none⟩] =
      [sampleOffer, ⟨none, none, none⟩].filterMap
        (transform_amadeus_offer_to_ticket ⟨"u"⟩) :=
  ⟨(transform_error_handling ⟨"u"⟩ ⟨none, none, none⟩ []).1
      (Or.inl ⟨"Missing required field: id", rfl⟩),
   (transform_error_handling ⟨"u"⟩ ⟨none, none, none⟩
      [sampleOffer, ⟨none, none, none⟩]).2⟩

/-! ## Table lemmas -/

theorem rowKey_newRow (r : TicketRecord) (now : Nat) :
    rowKey (newRow r now) = recKey r := rfl

theorem keyPresent_iff_count {tbl : Table} {r : TicketRecord} :
    keyPresent tbl r = true ↔ 0 < keyCount tbl r := by
  simp [keyPresent, keyCount, List.any_eq_true, List.countP_pos_iff]

theorem keyCount_eq_zero {tbl : Table} {r : TicketRecord}
    (h : keyPresent tbl r = false) : keyCount tbl r = 0 := by
  by_contra hne
  exact absurd (keyPresent_iff_count.mpr (Nat.pos_of_ne_zero hne)) (by simp [h])

theorem keyCount_upsert_present {tbl : Table} {r : TicketRecord} {now : Nat}
    (h : keyPresent tbl r = true) :
    keyCount (upsert tbl r now) r = keyCount tbl r := by
  simp only [upsert, h, if_true, keyCount, List.countP_map]
  apply List.countP_congr
  intro row _
  simp only [Function.comp_apply]
  split <;> simp_all [rowKey, recKey]

theorem keyCount_upsert_absent {tbl : Table} {r : TicketRecord} {now : Nat}
    (h : keyPresent tbl r = false) :
    keyCount (upsert tbl r now) r = keyCount tbl r + 1 := by
  simp only [upsert, h, Bool.false_eq_true, if_false, keyCount,
    List.countP_append]
  simp [List.countP, List.countP.go, rowKey_newRow]

theorem keyPresent_upsert (tbl : Table) (r : TicketRecord) (now : Nat) :
    keyPresent (upsert tbl r now) r = true := by
  cases h : keyPresent tbl r
  · exact keyPresent_iff_count.mpr (by rw [keyCount_upsert_absent h]; omega)
  · exact keyPresent_iff_count.mpr
      (by rw [keyCount_upsert_present h]; exact keyPresent_iff_count.mp h)

theorem mem_upsert_fields {tbl : Table} {r : TicketRecord} {now : Nat}
    (h : keyPresent tbl r = true) :
    ∀ row ∈ upsert tbl r now, rowKey row = recKey r →
      row.arrival_time = r.arrival_time ∧ row.seat_number = r.seat_number ∧
      row.notes = r.notes ∧ row.updated_at = now := by
  simp only [upsert, h, if_true]
  intro row hrow hkey
  obtain ⟨row', _, hrow'⟩ := List.mem_map.mp hrow
  by_cases hk : rowKey row' = recKey r
  · rw [if_pos hk] at hrow'
    subst hrow'
    exact ⟨rfl, rfl, rfl, rfl⟩
  · rw [if_neg hk] at hrow'
    subst hrow'
    exact absurd hkey hk

/-! ## C6 — idempotent upsert on the natural key -/

/-- C6: two consecutive `insert_flight_ticket` upserts of the same record
leave exactly one row with its natural key, and that row's
`arrival_time`, `seat_number`, `notes`, `updated_at` come from the second
write.  The hypothesis is the table invariant maintained by the unique
constraint: at most one row per natural key. -/
theorem upsert_idempotent_key (tbl : Table) (r : TicketRecord)
    (now1 now2 : Nat) (t1 t2 : Table)
    (hinv : keyCount tbl r ≤ 1)
    (h1 : insert_flight_ticket tbl r now1 false = some t1)
    (h2 : insert_flight_ticket t1 r now2 false = some t2) :
    keyCount t2 r = 1 ∧
    ∀ row ∈ t2, rowKey row = recKey r →
      row.arrival_time = r.arrival_time ∧ row.seat_number = r.seat_number ∧
      row.notes = r.notes ∧ row.updated_at = now2 := by
  simp only [insert_flight_ticket, Bool.false_eq_true, if_false,
    Option.some.injEq] at h1 h2
  subst h1
  subst h2
  have hkp1 : keyPresent (upsert tbl r now1) r = true :=
    keyPresent_upsert tbl r now1
  refine ⟨?_, mem_upsert_fields hkp1⟩
  rw [keyCount_upsert_present hkp1]
  cases h : keyPresent tbl r
  · rw [keyCount_upsert_absent h, keyCount_eq_zero h]
  · rw [keyCount_upsert_present h]
    have := keyPresent_iff_count.mp h
    omega

/-- C6 witness: writing `sampleRecord` twice into an empty table. -/
theorem upsert_idempotent_key_witness :
    keyCount (upsert (upsert [] sampleRecord 1) sampleRecord 2)
      sampleRecord = 1 ∧
    ({ user_id := "u", origin := "AAA", destination := "BBB",
       departure_time := "t1", arrival_time := "t2", seat_number := none,
       notes := some "OFFER-1", created_at := 1,
       updated_at := 2 } : Row).updated_at = 2 :=
  ⟨(upsert_idempotent_key [] sampleRecord 1 2
      (upsert [] sampleRecord 1)
      (upsert (upsert [] sampleRecord 1) sampleRecord 2)
      (by decide) rfl rfl).1,
   ((upsert_idempotent_key [] sampleRecord 1 2
      (upsert [] sampleRecord 1)
      (upsert (upsert [] sampleRecord 1) sampleRecord 2)
      (by decide) rfl rfl).2
      { user_id := "u", origin := "AAA", destination := "BBB",
        departure_time := "t1", arrival_time := "t2", seat_number := none,
        notes := some "OFFER-1", created_at := 1, updated_at := 2 }
      (by decide) (by decide)).2.2.2⟩

/-! ## C7 — bulk insert and per-record fallback agree on fresh chunks -/

theorem keyPresent_append {t1 t2 : Table} {r : TicketRecord} :
    keyPresent (t1 ++ t2) r = (keyPresent t1 r || keyPresent t2 r) := by
  simp [keyPresent, List.any_append]

theorem insertAll_fresh (now : Nat) :
    ∀ (c : List TicketRecord) (tbl : Table),
      (∀ r ∈ c, keyPresent tbl r = false) → (c.map recKey).Nodup →
      insertAll tbl c now = some (tbl ++ c.map (fun r => newRow r now)) := by
  intro c
  induction c with
  | nil => intro tbl _ _; simp [insertAll]
  | cons r rest ih =>
    intro tbl hfresh hnodup
    have hr := hfresh r (List.mem_cons_self r rest)
    simp only [insertAll, insertPlain, hr, Bool.false_eq_true, if_false]
    rw [ih (tbl ++ [newRow r now]) ?_ ?_]
    · simp
    · intro r' hr'
      rw [keyPresent_append, hfresh r' (List.mem_cons_of_mem r hr')]
      simp only [Bool.false_or, keyPresent, List.any_cons, List.any_nil,
        Bool.or_false, rowKey_newRow]
      simp only [List.map_cons, List.nodup_cons] at hnodup
      exact decide_eq_false fun hc =>
        hnodup.1 (hc ▸ List.mem_map_of_mem recKey hr')
    · simp only [List.map_cons, List.nodup_cons] at hnodup
      exact hnodup.2

theorem fallbackLoop_nofail_fresh (now : Nat) :
    ∀ (c : List TicketRecord) (tbl : Table) (j : Nat),
      (∀ r ∈ c, keyPresent tbl r = false) → (c.map recKey).Nodup →
      fallbackLoop tbl c (fun _ => false) j now =
        (c.length, tbl ++ c.map (fun r => newRow r now)) := by
  intro c
  induction c with
  | nil => intro tbl j _ _; simp [fallbackLoop]
  | cons r rest ih =>
    intro tbl j hfresh hnodup
    have hr := hfresh r (List.mem_cons_self r rest)
    have hup : upsert tbl r now = tbl ++ [newRow r now] := by
      simp [upsert, hr]
    simp only [fallbackLoop, insert_flight_ticket, Bool.false_eq_true,
      if_false, hup]
    rw [ih (tbl ++ [newRow r now]) (j + 1) ?_ ?_]
    · simp [List.length_cons]
    · intro r' hr'
      rw [keyPresent_append, hfresh r' (List.mem_cons_of_mem r hr')]
      simp only [Bool.false_or, keyPresent, List.any_cons, List.any_nil,
        Bool.or_false, rowKey_newRow]
      simp only [List.map_cons, List.nodup_cons] at hnodup
      exact decide_eq_false fun hc =>
        hnodup.1 (hc ▸ List.mem_map_of_mem recKey hr')
    · simp only [List.map_cons, List.nodup_cons] at hnodup
      exact hnodup.2

/-- C7: on a chunk with no natural-key collisions (keys fresh for the table
and pairwise distinct), the bulk `INSERT` of the whole chunk and the
per-record upsert fallback (with no external failures) produce the same
final row set — and the fallback persists and counts every record. -/
theorem fallback_bulk_equiv (tbl : Table) (c : List TicketRecord) (now : Nat)
    (hfresh : ∀ r ∈ c, keyPresent tbl r = false)
    (hnodup : (c.map recKey).Nodup) :
    insertAll tbl c now = some (tbl ++ c.map (fun r => newRow r now)) ∧
    fallbackLoop tbl c (fun _ => false) 0 now =
      (c.length, tbl ++ c.map (fun r => newRow r now)) :=
  ⟨insertAll_fresh now c tbl hfresh hnodup,
   fallbackLoop_nofail_fresh now c tbl 0 hfresh hnodup⟩

/-- C7 witness: a two-record fresh chunk over the empty table. -/
theorem fallback_bulk_equiv_witness :
    insertAll [] [sampleRecord, sampleRecord2] 5 =
      some ([] ++ [sampleRecord, sampleRecord2].map (fun r => newRow r 5)) ∧
    fallbackLoop [] [sampleRecord, sampleRecord2] (fun _ => false) 0 5 =
      (([sampleRecord, sampleRecord2] : List TicketRecord).length,
       [] ++ [sampleRecord, sampleRecord2].map (fun r => newRow r 5)) :=
  fallback_bulk_equiv [] [sampleRecord, sampleRecord2] 5
    (by decide) (by decide)

/-! ## C1 — the batching writer realizes the spec's chunked algorithm -/

theorem chunksB_cons (a : α) (l : List α) :
    chunksB (a :: l) =
      (a :: l).take batch_size :: chunksB ((a :: l).drop batch_size) := by
  rw [chunksB]

theorem chunksB_ne_nil {l : List α} (h : l ≠ []) :
    chunksB l = l.take batch_size :: chunksB (l.drop batch_size) := by
  cases l with
  | nil => exact absurd rfl h
  | cons a t => exact chunksB_cons a t

theorem chunksB_join_aux :
    ∀ (n : Nat) (l : List α), l.length ≤ n → (chunksB l).flatten = l := by
  intro n
  induction n with
  | zero =>
    intro l h
    have : l = [] := List.length_eq_zero.mp (Nat.le_zero.mp h)
    subst this
    simp [chunksB]
  | succ n ih =>
    intro l h
    cases l with
    | nil => simp [chunksB]
    | cons a t =>
      rw [chunksB_cons, List.flatten_cons, ih _ ?_, List.take_append_drop]
      simp only [List.length_drop, List.length_cons, batch_size]
      simp only [List.length_cons] at h
      omega

/-- The spec's chunk partition reassembles to the input, in order. -/
theorem chunksB_join (l : List α) : (chunksB l).flatten = l :=
  chunksB_join_aux l.length l (Nat.le_refl _)

theorem chunksB_bounds_aux :
    ∀ (n : Nat) (l : List α), l.length ≤ n →
      ∀ c ∈ chunksB l, c ≠ [] ∧ c.length ≤ batch_size := by
  intro n
  induction n with
  | zero =>
    intro l h
    have : l = [] := List.length_eq_zero.mp (Nat.le_zero.mp h)
    subst this
    simp [chunksB]
  | succ n ih =>
    intro l h c hc
    cases l with
    | nil => simp [chunksB] at hc
    | cons a t =>
      rw [chunksB_cons] at hc
      rcases List.mem_cons.mp hc with hhd | htl
      · subst hhd
        constructor
        · intro hnil
          have : (0 : Nat) < ((a :: t).take batch_size).length := by
            simp [List.length_take, batch_size]
          rw [hnil] at this
          simp at this
        · simp [List.length_take]
      · refine ih _ ?_ c htl
        simp only [List.length_drop, List.length_cons, batch_size]
        simp only [List.length_cons] at h
        omega

/-- Every chunk is non-empty and no larger than `batch_size`. -/
theorem chunksB_bounds (l : List α) :
    ∀ c ∈ chunksB l, c ≠ [] ∧ c.length ≤ batch_size :=
  chunksB_bounds_aux l.length l (Nat.le_refl _)

/-- The fallback loop, characterized by the spec's words: it counts and
applies exactly the records whose individual upsert does not fail,
independent of which earlier records failed. -/
theorem fallbackLoop_eq (now : Nat) (rf : Nat → Bool) :
    ∀ (batch : List TicketRecord) (tbl : Table) (j : Nat),
      fallbackLoop tbl batch rf j now =
        (((batch.enumFrom j).filter (fun p => !rf p.1)).length,
         ((batch.enumFrom j).filter (fun p => !rf p.1)).foldl
           (fun t p => upsert t p.2 now) tbl) := by
  intro batch
  induction batch with
  | nil => intro tbl j; simp [fallbackLoop, List.enumFrom]
  | cons r rest ih =>
    intro tbl j
    simp only [fallbackLoop, insert_flight_ticket, List.enumFrom]
    cases hj : rf j
    · simp only [Bool.false_eq_true, if_false]
      rw [ih (upsert tbl r now) (j + 1)]
      simp [List.filter_cons, hj]
    · simp only [if_true]
      rw [ih tbl (j + 1)]
      simp [List.filter_cons, hj]

theorem specChunk_eq_impl (rf : Nat → Bool) (bf : Bool) (now : Nat)
    (tbl : Table) (c : List TicketRecord) :
    specChunk rf bf now tbl c =
      match (if bf then none else insertAll tbl c now) with
      | some t' => (c.length, t')
      | none => fallbackLoop tbl c rf 0 now := by
  simp only [specChunk]
  cases hb : (if bf then none else insertAll tbl c now) with
  | some t' => rfl
  | none =>
    rw [fallbackLoop_eq now rf c tbl 0]
    rfl

theorem bulkLoop_unfold (orc : WriteOracle) (now : Nat)
    (records : List TicketRecord) (tbl : Table) (i : Nat) :
    bulkLoop orc now records tbl i =
      if _h : i < records.length then
        let batch := (records.drop i).take batch_size
        let p :=
          match (if orc.bulkFail i then none else insertAll tbl batch now) with
          | some t' => (batch.length, t')
          | none => fallbackLoop tbl batch (orc.rowFail i) 0 now
        let q := bulkLoop orc now records p.2 (i + batch_size)
        (p.1 + q.1, q.2)
      else (0, tbl) := by
  rw [bulkLoop]

theorem bulkLoop_eq_spec (orc : WriteOracle) (now : Nat)
    (records : List TicketRecord) :
    ∀ (n i : Nat) (tbl : Table), records.length - i ≤ n →
      bulkLoop orc now records tbl i =
        specWriteBatch orc now (chunksB (records.drop i)) i tbl := by
  intro n
  induction n with
  | zero =>
    intro i tbl h
    rw [bulkLoop_unfold, dif_neg (by omega)]
    have hd : records.drop i = [] :=
      List.drop_eq_nil_of_le (by omega)
    rw [hd]
    simp [chunksB, specWriteBatch]
  | succ n ih =>
    intro i tbl h
    by_cases hi : i < records.length
    · rw [bulkLoop_unfold, dif_pos hi]
      have hd : records.drop i ≠ [] := by
        intro hc
        have := List.drop_eq_nil_iff.mp hc
        omega
      rw [chunksB_ne_nil hd]
      simp only [specWriteBatch, specChunk_eq_impl]
      have hdd : (records.drop i).drop batch_size =
          records.drop (i + batch_size) := by
        rw [List.drop_drop, Nat.add_comm]
      rw [hdd]
      cases hb : (if orc.bulkFail i then none
          else insertAll tbl ((records.drop i).take batch_size) now) with
      | some t' =>
        simp only [hb]
        rw [ih (i + batch_size) t' (by simp only [batch_size]; omega)]
      | none =>
        simp only [hb]
        rw [ih (i + batch_size)
          (fallbackLoop tbl ((records.drop i).take batch_size)
            (orc.rowFail i) 0 now).2 (by simp only [batch_size]; omega)]
    · rw [bulkLoop_unfold, dif_neg hi]
      have hd : records.drop i = [] :=
        List.drop_eq_nil_of_le (by omega)
      rw [hd]
      simp [chunksB, specWriteBatch]

/-- C1: `_bulk_insert_with_batching` is exactly the spec's algorithm: the
records are partitioned into chunks of `batch_size = 100` in input order
(the chunks reassemble to the input and each is non-empty and at most
100 long), and the writer's count/table pair equals the per-chunk
processing of the spec — full chunk length on bulk-insert success, and on
bulk failure exactly the individually succeeding records, in order,
without aborting the chunk or later chunks. -/
theorem writeBatch_chunked_spec (orc : WriteOracle) (now : Nat)
    (tbl : Table) (records : List TicketRecord) :
    (chunksB records).flatten = records ∧
    (∀ c ∈ chunksB records, c ≠ [] ∧ c.length ≤ batch_size) ∧
    batch_size = 100 ∧
    bulk_insert_with_batching orc now tbl records =
      specWriteBatch orc now (chunksB records) 0 tbl := by
  refine ⟨chunksB_join records, chunksB_bounds records, rfl, ?_⟩
  simp only [bulk_insert_with_batching]
  cases records with
  | nil => simp [chunksB, specWriteBatch]
  | cons a t =>
    simp only [List.isEmpty_cons, Bool.false_eq_true, if_false]
    have := bulkLoop_eq_spec orc now (a :: t) (a :: t).length 0 tbl
      (by omega)
    simpa using this

/-! ## C3 — per-sink failures are isolated and never escape -/

/-- C3: `bulk_insert_flight_tickets` (a total function — no exception ever
escapes it) produces one entry per configured sink in iteration order, and
any sink whose connection opening or schema-ensure step fails contributes
`0` with its table unchanged (the rolled-back transaction), leaving every
other sink's processing untouched. -/
theorem per_sink_failure_isolated (h : MultiDatabaseHandler)
    (records : List TicketRecord) (now : Nat) :
    ((bulk_insert_flight_tickets h records now).1.map Prod.fst =
      h.engines.map Prod.fst) ∧
    ∀ (k : Nat) (db_name : String) (e : Engine),
      h.engines[k]? = some (db_name, e) →
      (e.beginFails = true ∨ e.schemaFails = true) →
      (bulk_insert_flight_tickets h records now).1[k]? =
        some (db_name, 0) ∧
      (bulk_insert_flight_tickets h records now).2.engines[k]? =
        some (db_name, e) := by
  constructor
  · simp [bulk_insert_flight_tickets, List.map_map, Function.comp]
  · intro k db_name e hk hfail
    have hps : processSink records now e = (0, e.table) := by
      rcases hfail with hb | hs
      · simp [processSink, hb]
      · simp only [processSink, create_flight_tickets_table, hs, if_true]
        cases hbgn : e.beginFails <;> simp
    constructor
    · simp only [bulk_insert_flight_tickets, List.getElem?_map, hk,
        Option.map_some', hps]
    · simp only [bulk_insert_flight_tickets, List.getElem?_map, hk,
        Option.map_some', hps]

/-- C3 witness: a handler whose first sink fails at schema-ensure and whose
second is healthy. -/
theorem per_sink_failure_isolated_witness :
    ((bulk_insert_flight_tickets sampleHandler2 [sampleRecord] 0).1.map
        Prod.fst = sampleHandler2.engines.map Prod.fst) ∧
    ((bulk_insert_flight_tickets sampleHandler2 [sampleRecord] 0).1[0]? =
        some ("s1", 0) ∧
      (bulk_insert_flight_tickets sampleHandler2
          [sampleRecord] 0).2.engines[0]? = some ("s1", schemaFailEngine)) :=
  ⟨(per_sink_failure_isolated sampleHandler2 [sampleRecord] 0).1,
   (per_sink_failure_isolated sampleHandler2 [sampleRecord] 0).2 0 "s1"
     schemaFailEngine rfl (Or.inr rfl)⟩

/-! ## C2 — sinks with failed engine initialization -/

theorem bulkLoop_all_ok (now : Nat) (records : List TicketRecord) :
    ∀ (n i : Nat) (tbl : Table), records.length - i ≤ n →
      (∀ r ∈ records.drop i, keyPresent tbl r = false) →
      ((records.drop i).map recKey).Nodup →
      bulkLoop noFailOracle now records tbl i =
        ((records.drop i).length,
         tbl ++ (records.drop i).map (fun r => newRow r now)) := by
  intro n
  induction n with
  | zero =>
    intro i tbl h _ _
    rw [bulkLoop_unfold, dif_neg (by omega)]
    rw [List.drop_eq_nil_of_le (by omega)]
    simp
  | succ n ih =>
    intro i tbl h hfresh hnodup
    by_cases hi : i < records.length
    · rw [bulkLoop_unfold, dif_pos hi]
      have hsplit : (records.drop i).take batch_size ++
          (records.drop i).drop batch_size = records.drop i :=
        List.take_append_drop _ _
      have hfreshb : ∀ r ∈ (records.drop i).take batch_size,
          keyPresent tbl r = false :=
        fun r hr => hfresh r (List.mem_of_mem_take hr)
      have hnodupb : (((records.drop i).take batch_size).map recKey).Nodup :=
        (((List.take_sublist _ _).map recKey)).nodup hnodup
      have hins := insertAll_fresh now ((records.drop i).take batch_size)
        tbl hfreshb hnodupb
      have hdisj : (((records.drop i).take batch_size).map recKey).Disjoint
          ((((records.drop i).drop batch_size)).map recKey) := by
        have : ((records.drop i).map recKey).Nodup := hnodup
        rw [← hsplit, List.map_append] at this
        exact (List.nodup_append.mp this).2.2
      have hdd : records.drop (i + batch_size) =
          (records.drop i).drop batch_size := by
        rw [List.drop_drop, Nat.add_comm]
      have hnf : noFailOracle.bulkFail i = false := rfl
      simp only [hnf, Bool.false_eq_true, if_false, hins]
      rw [ih (i + batch_size)
        (tbl ++ ((records.drop i).take batch_size).map (fun r => newRow r now))
        (by simp only [batch_size]; omega) ?_ ?_]
      · rw [hdd]
        conv_rhs => rw [← hsplit]
        simp [List.length_append, List.map_append, List.append_assoc]
        omega
      · intro r hr
        rw [hdd] at hr
        rw [keyPresent_append,
          hfresh r (List.mem_of_mem_drop hr), Bool.false_or]
        simp only [keyPresent, List.any_eq_false]
        intro b hb
        obtain ⟨b', hb', rfl⟩ := List.mem_map.mp hb
        simp only [rowKey_newRow, decide_eq_true_eq]
        intro hkey
        exact hdisj (List.mem_map_of_mem recKey hb')
          (by rw [hkey]; exact List.mem_map_of_mem recKey hr)
      · rw [hdd]
        exact (((List.drop_sublist _ _).map recKey)).nodup hnodup
    · rw [bulkLoop_unfold, dif_neg hi]
      rw [List.drop_eq_nil_of_le (by omega)]
      simp

/-- A healthy sink over an empty table persists every record of a
collision-free batch and reports the full count. -/
theorem bulk_insert_all_ok (now : Nat) (records : List TicketRecord)
    (hnodup : (records.map recKey).Nodup) :
    bulk_insert_with_batching noFailOracle now [] records =
      (records.length, records.map (fun r => newRow r now)) := by
  cases records with
  | nil => simp [bulk_insert_with_batching]
  | cons a t =>
    simp only [bulk_insert_with_batching, List.isEmpty_cons,
      Bool.false_eq_true, if_false]
    have := bulkLoop_all_ok now (a :: t) (a :: t).length 0 []
      (by omega) (fun r _ => rfl) (by simpa using hnodup)
    simpa using this

theorem processSink_healthy (records : List TicketRecord) (now : Nat)
    (hnodup : (records.map recKey).Nodup) :
    processSink records now healthyEngine =
      (records.length, records.map (fun r => newRow r now)) := by
  simp only [processSink, healthyEngine, create_flight_tickets_table,
    Bool.false_eq_true, if_false]
  exact bulk_insert_all_ok now records hnodup

/-- C2 counterexample: with `badSink` configured with an invalid connection
string (its `create_engine` raises) and `goodSink` valid, the returned map
has NO entry for `badSink` at all — `_initialize_engines` never stores the
failed engine, so the sink is silently missing rather than recorded as
`0`. -/
theorem sink_isolation_cex :
    (bulk_insert_flight_tickets sampleHandler
        [sampleRecord, sampleRecord2] 0).1 = [("goodSink", 2)] ∧
    (bulk_insert_flight_tickets sampleHandler
        [sampleRecord, sampleRecord2] 0).1.lookup "badSink" = none := by
  have h1 : sampleHandler.engines = [("goodSink", healthyEngine)] := rfl
  have h2 := processSink_healthy [sampleRecord, sampleRecord2] 0 (by decide)
  constructor
  · simp only [bulk_insert_flight_tickets, h1, List.map_cons, List.map_nil,
      h2]
    rfl
  · simp only [bulk_insert_flight_tickets, h1, List.map_cons, List.map_nil,
      h2]
    rfl

/-- With no external failures every fallback upsert succeeds, so the
fallback loop counts the whole chunk, whatever the table holds. -/
theorem fallbackLoop_all_count (now : Nat) (rf : Nat → Bool)
    (hrf : ∀ j, rf j = false) (batch : List TicketRecord) (tbl : Table)
    (j : Nat) : (fallbackLoop tbl batch rf j now).1 = batch.length := by
  rw [fallbackLoop_eq now rf batch tbl j]
  simp [hrf]

/-- With no external failures each chunk contributes its full length to the
count — via the bulk insert when it succeeds, via the all-upserting
fallback when it fails on the unique constraint — for any starting table,
collisions or not. -/
theorem bulkLoop_nofail_count (now : Nat) (records : List TicketRecord) :
    ∀ (n i : Nat) (tbl : Table), records.length - i ≤ n →
      (bulkLoop noFailOracle now records tbl i).1 =
        (records.drop i).length := by
  intro n
  induction n with
  | zero =>
    intro i tbl h
    rw [bulkLoop_unfold, dif_neg (by omega)]
    rw [List.drop_eq_nil_of_le (by omega)]
    rfl
  | succ n ih =>
    intro i tbl h
    by_cases hi : i < records.length
    · rw [bulkLoop_unfold, dif_pos hi]
      have hlen : ∀ t : Table,
          (bulkLoop noFailOracle now records t (i + batch_size)).1 =
            (records.drop (i + batch_size)).length :=
        fun t => ih (i + batch_size) t (by simp only [batch_size]; omega)
      cases hb : (if noFailOracle.bulkFail i then none
          else insertAll tbl ((records.drop i).take batch_size) now) with
      | some t' =>
        simp only [hb, hlen]
        simp only [List.length_take, List.length_drop, batch_size]
        omega
      | none =>
        simp only [hb, hlen,
          fallbackLoop_all_count now (noFailOracle.rowFail i) (fun _ => rfl)]
        simp only [List.length_take, List.length_drop, batch_size]
        omega
    · rw [bulkLoop_unfold, dif_neg hi]
      rw [List.drop_eq_nil_of_le (by omega)]
      rfl

/-- With no external failures the writer reports the full record count for
any record list and starting table, duplicate natural keys included. -/
theorem bulk_insert_nofail_count (now : Nat) (tbl : Table)
    (records : List TicketRecord) :
    (bulk_insert_with_batching noFailOracle now tbl records).1 =
      records.length := by
  cases records with
  | nil => rfl
  | cons a t =>
    simp only [bulk_insert_with_batching, List.isEmpty_cons,
      Bool.false_eq_true, if_false]
    have := bulkLoop_nofail_count now (a :: t) (a :: t).length 0 tbl
      (by omega)
    simpa using this

/-- C2 (amended): a sink whose engine initialization fails is omitted from
`engines` and hence absent from the returned map (not recorded as `0`);
the valid sink still receives and reports all `N` submitted records —
with or without natural-key collisions among them — and no exception
escapes (the writer is a total function). -/
theorem sink_isolation_amended (badName goodName badConn goodConn : String)
    (ce : String → Option Engine) (records : List TicketRecord) (now : Nat)
    (hbad : ce badConn = none)
    (hgood : ce goodConn = some healthyEngine) :
    (bulk_insert_flight_tickets
        ⟨initialize_engines [(badName, badConn), (goodName, goodConn)] ce⟩
        records now).1 = [(goodName, records.length)] := by
  simp only [initialize_engines, hbad, hgood]
  simp only [bulk_insert_flight_tickets, List.map_cons, List.map_nil]
  have hps : processSink records now healthyEngine =
      bulk_insert_with_batching noFailOracle now [] records := rfl
  rw [hps, bulk_insert_nofail_count now [] records]

/-- C2 witness: the two-sink configuration with two submitted records. -/
theorem sink_isolation_amended_witness :
    (bulk_insert_flight_tickets
        ⟨initialize_engines [("badSink", "bad://"), ("goodSink", "ok://")]
          sampleCreateEngine⟩
        [sampleRecord, sampleRecord2] 0).1 =
      [("goodSink", ([sampleRecord, sampleRecord2] :
        List TicketRecord).length)] :=
  sink_isolation_amended "badSink" "goodSink" "bad://" "ok://"
    sampleCreateEngine [sampleRecord, sampleRecord2] 0 rfl rfl

end TRS
